import Mathlib

/-!
Verification of the frame-based metaphor retrieval pipeline
(`frbasedretrieval.py`).

The script is a sequential pipeline: a SPARQL query executor with a bounded
retry loop, a mapping fetcher that flattens query bindings into rows, a
frame-typing expander, and an overlap computer over sorted label lists.
Remote behaviour is modelled by explicit response parameters: each function
that performs a remote call takes the (parsed) response it would receive as
an argument, so every definition below is a pure translation of the Python
control flow and data flow.

Machine conventions:
* a SPARQL JSON binding value is `Option String` (`None` when the variable
  is unbound, mirroring `b.get(var, {}).get("value")`);
* Python `float` sleep durations are modelled by `ℚ`;
* Python exceptions escaping a call are an `Except` value;
* the Python `int` argument `retries` is an `Int` (`range(retries)` is empty
  for non-positive values);
* `pandas.DataFrame(rows)` infers its columns from the row dictionaries, so a
  frame built from an empty row list has no columns, and a subsequent column
  access such as `df_map["source_frame"]` raises a `KeyError`; this is
  modelled by the `Except` result of `main`.
-/

/-- One step of the retry loop of `run_sparql`.  `f attempt` is the outcome of
the `attempt`-th execution of `sparql.query().convert()` (0-based).  The
result pairs the value returned (or the exception finally raised, or `none`
when the loop body never runs and the Python function falls through returning
`None`) with the list of sleep durations performed, in order. -/
def runSparqlGo {ε α : Type} (f : ℕ → Except ε α) (retries : Int) (backoff : ℚ)
    (attempt : ℕ) : Option (Except ε α) × List ℚ :=
  if _h : attempt < retries.toNat then
    match f attempt with
    | Except.ok v => (some (Except.ok v), [])
    | Except.error e =>
      if (attempt : Int) = retries - 1 then
        (some (Except.error e), [])
      else
        let r := runSparqlGo f retries backoff (attempt + 1)
        (r.1, backoff * ((attempt : ℚ) + 1) :: r.2)
  else
    (none, [])
termination_by retries.toNat - attempt
decreasing_by omega

/-- `run_sparql`: run the query with up to `retries` attempts, sleeping
`backoff * (attempt + 1)` after each failed attempt except the last, whose
error is re-raised. -/
def run_sparql {ε α : Type} (f : ℕ → Except ε α) (retries : Int) (backoff : ℚ) :
    Option (Except ε α) × List ℚ :=
  runSparqlGo f retries backoff 0

/-- Python whitespace characters stripped by `str.strip()` (ASCII part). -/
def isWS (c : Char) : Bool :=
  c == ' ' || c == '\t' || c == '\n' || c == '\r' || c == '\x0b' || c == '\x0c'

/-- Drop trailing whitespace. -/
def dropTrail (l : List Char) : List Char :=
  (l.reverse.dropWhile isWS).reverse

/-- `str.strip()` on the character list: drop leading then trailing whitespace. -/
def stripChars (l : List Char) : List Char :=
  dropTrail (l.dropWhile isWS)

/-- Python `s.strip()`. -/
def pyStrip (s : String) : String :=
  String.mk (stripChars s.data)

/-- Code-point lexicographic comparison of character lists: `charListLe a b`
is Python's `a <= b` on the corresponding strings. -/
def charListLe : List Char → List Char → Bool
  | [], _ => true
  | _ :: _, [] => false
  | a :: as, b :: bs =>
    if a.toNat < b.toNat then true
    else if b.toNat < a.toNat then false
    else charListLe as bs

/-- Python string comparison `a <= b` (lexicographic on code points). -/
def pyLe (a b : String) : Bool := charListLe a.data b.data

/-- Python `sorted` on a list of strings (ascending code-point lexicographic
order). -/
def pySorted (l : List String) : List String :=
  l.insertionSort (fun a b => pyLe a b)

/-- Worker for `dedup`: keep an element when it has not been seen before. -/
def dedupAux {α : Type} [DecidableEq α] (seen : List α) : List α → List α
  | [] => []
  | x :: xs => if x ∈ seen then dedupAux seen xs else x :: dedupAux (x :: seen) xs

/-- Exact-tuple deduplication keeping first occurrences: the semantics of
`pandas.DataFrame.drop_duplicates()` on a list of rows (and of collecting a
Python `set`, up to the subsequent sort). -/
def dedup {α : Type} [DecidableEq α] (l : List α) : List α := dedupAux [] l

/-- Python `"; ".join`. -/
def joinSemi : List String → String
  | [] => ""
  | [s] => s
  | s :: r :: t => s ++ "; " ++ joinSemi (r :: t)

/-- One step of splitting on the separator `"; "`, processed from the right:
the state is the nonempty list of fields to the right of the cursor, the head
being the field currently under construction.  A `';'` directly followed by a
field starting with `' '` closes that field.  Because two occurrences of
`"; "` can never overlap (the second character `' '` differs from the first
`';'`), splitting at every occurrence from the right yields exactly Python's
left-to-right `s.split("; ")`. -/
def semiSplitStep (c : Char) (st : List (List Char)) : List (List Char) :=
  match st with
  | cur :: done =>
    match cur with
    | c2 :: curRest =>
      if c = ';' ∧ c2 = ' ' then [] :: curRest :: done else (c :: cur) :: done
    | [] => [c] :: done
  | [] => [[c]]

/-- Python `s.split("; ")` on the character list. -/
def semiSplitChars (s : List Char) : List (List Char) :=
  s.foldr semiSplitStep [[]]

/-- The claim side operation: split a semicolon-joined field, with the empty
string splitting to the empty list (Python `"".split(sep)` would give `[""]`;
the specification explicitly selects the empty-list reading). -/
def semiSplit (s : String) : List String :=
  if s = "" then [] else (semiSplitChars s.data).map String.mk

/-- Does the character list contain the separator `"; "` as a contiguous
substring?  (Python `"; " in s`.) -/
def containsSep : List Char → Bool
  | [] => false
  | c :: rest =>
    (match rest with
     | c2 :: _ => c == ';' && c2 == ' '
     | [] => false) || containsSep rest

/-- The fixed endpoint address. -/
def FRAMESTER_SPARQL : String := "https://etna.istc.cnr.it/framester2/sparql"

/-- The hardcoded configured list of ten metaphor identifiers. -/
def SELECTED_METAPHORS : List String := [
  "https://w3id.org/framester/metanet/metaphors/GOVERNMENT_INSTITUTION_IS_A_BUILDING",
  "https://w3id.org/framester/metanet/metaphors/GOVERNMENT_IS_A_PERSON",
  "https://w3id.org/framester/metanet/metaphors/GOVERNMENT_IS_AN_ORGANISM",
  "https://w3id.org/framester/metanet/metaphors/GOVERNING_ACTION_IS_MOTION",
  "https://w3id.org/framester/metanet/metaphors/GOVERNMENT_INSTITUTION_IS_A_PHYSICAL_STRUCTURE",
  "https://w3id.org/framester/metanet/metaphors/CAUSED_CHANGE_OF_STATE_IS_CAUSED_CHANGE_OF_LOCATION",
  "https://w3id.org/framester/metanet/metaphors/ANALYZING_IS_DISSECTING",
  "https://w3id.org/framester/metanet/metaphors/MACHINES_ARE_PEOPLE",
  "https://w3id.org/framester/metanet/metaphors/CHANGE_IN_CONTROLLER_IS_TRANSFER_OF_POSSESSION",
  "https://w3id.org/framester/metanet/metaphors/DISEASE_TREATMENT_IS_WAR"]

/-- One JSON binding of the mapping query of `get_mappings_roles_entailments`:
each SPARQL variable is present with a value, or absent. -/
structure MapBinding where
  metaphor : Option String
  src : Option String
  tgt : Option String
  srcRole : Option String
  tgtRole : Option String
  ent : Option String
  ex : Option String
deriving DecidableEq, Repr

/-- One row of the mapping table (`ex` is the `example` CSV column; `example`
is a reserved word in Lean). -/
structure MapRow where
  metaphor : Option String
  source_frame : Option String
  target_frame : Option String
  source_role : Option String
  target_role : Option String
  entailment : Option String
  ex : Option String
deriving DecidableEq, Repr

/-- `get_mappings_roles_entailments`: flatten the bindings of the mapping
query for `metaphor_iri` into rows, substituting `none` for any unbound
variable.  `resp` is the parsed response of the single `run_sparql` call. -/
def get_mappings_roles_entailments (metaphor_iri : String) (resp : List MapBinding) :
    List MapRow :=
  let _ := metaphor_iri
  resp.map (fun b => ⟨b.metaphor, b.src, b.tgt, b.srcRole, b.tgtRole, b.ent, b.ex⟩)

/-- The all-null placeholder row emitted by `main` for a metaphor whose query
returned zero rows. -/
def placeholderRow (m : String) : MapRow :=
  ⟨some m, none, none, none, none, none, none⟩

/-- The mapping-stage loop of `main`: one placeholder row per metaphor with an
empty result, otherwise the flattened rows. -/
def buildMapRows (mapResp : String → List MapBinding) (metaphors : List String) :
    List MapRow :=
  metaphors.flatMap (fun m =>
    let rows := get_mappings_roles_entailments m (mapResp m)
    if rows.isEmpty then [placeholderRow m] else rows)

/-- One JSON binding of the candidate query of `expand_equivalents_and_typing`
(the `typing` variable is read into an unused local in the source and is
likewise ignored here). -/
structure CandBinding where
  candidate : Option String
  typing : Option String
deriving DecidableEq, Repr

/-- The record returned by `expand_equivalents_and_typing`. -/
structure TypingInfo where
  seed : String
  candidates : List String
  as_source : List String
  as_target : List String
deriving DecidableEq, Repr

/-- `expand_equivalents_and_typing`: collect the candidate IRIs from the first
query's bindings (defaulting an unbound `candidate` to the seed), then run the
two ASK round-trips per candidate.  `resp` is the parsed response of the first
query and `askSrc`/`askTgt` give the boolean results of the per-candidate ASK
queries. -/
def expand_equivalents_and_typing (frame_uri : String) (resp : List CandBinding)
    (askSrc askTgt : String → Bool) : TypingInfo :=
  let cand_all := dedup (resp.map (fun b => b.candidate.getD frame_uri))
  let src := cand_all.filter (fun c => askSrc c)
  let tgt := cand_all.filter (fun c => askTgt c)
  ⟨frame_uri, cand_all, src, tgt⟩

/-- One JSON binding of the label query of `get_frame_elements_and_synsets`. -/
structure LabBinding where
  feLabel : Option String
  synLabel : Option String
deriving DecidableEq, Repr

/-- `get_frame_elements_and_synsets`: collect the truthy (bound and nonempty)
`feLabel` and `synLabel` values, stripped, as two sets, and return them as two
sorted lists. -/
def get_frame_elements_and_synsets (frame_uri : String) (resp : List LabBinding) :
    List String × List String :=
  let _ := frame_uri
  let fe := dedup (resp.filterMap (fun b =>
    b.feLabel.bind (fun l => if l = "" then none else some (pyStrip l))))
  let syn := dedup (resp.filterMap (fun b =>
    b.synLabel.bind (fun l => if l = "" then none else some (pyStrip l))))
  (pySorted fe, pySorted syn)

/-- One row of the overlap table. -/
structure OverlapRow where
  source_frame : String
  target_frame : String
  n_common_frame_elements : ℕ
  n_common_synset_labels : ℕ
  common_frame_elements : String
  common_synset_labels : String
deriving DecidableEq, Repr

/-- `compute_overlap`: fetch the two label lists for each frame (`labResp f`
is the response of the label query for frame `f`), intersect them as sets, and
report counts and semicolon-joined contents. -/
def compute_overlap (source_frame target_frame : String)
    (labResp : String → List LabBinding) : OverlapRow :=
  let fs := get_frame_elements_and_synsets source_frame (labResp source_frame)
  let ft := get_frame_elements_and_synsets target_frame (labResp target_frame)
  let common_fe := pySorted (fs.1.filter (fun x => ft.1.contains x))
  let common_syn := pySorted (fs.2.filter (fun x => ft.2.contains x))
  ⟨source_frame, target_frame, common_fe.length, common_syn.length,
    joinSemi common_fe, joinSemi common_syn⟩

/-- One row of the frame typing table. -/
structure TypingRow where
  seed_frame : String
  equivalent_or_related_frames : String
  as_source : String
  as_target : String
deriving DecidableEq, Repr

/-- A delimited output file: the header actually written (empty for a
`DataFrame` with no inferred columns) and the data rows. -/
structure Csv (ρ : Type) where
  header : List String
  rows : List ρ
deriving DecidableEq, Repr

/-- Header of `metaphor_mappings_roles_entailments.csv`. -/
def mappingHeader : List String :=
  ["metaphor", "source_frame", "target_frame", "source_role", "target_role",
   "entailment", "example"]

/-- Header of `frame_typing_expanded.csv`. -/
def typingHeader : List String :=
  ["seed_frame", "equivalent_or_related_frames", "as_source", "as_target"]

/-- Header of `similarity_overlap.csv`. -/
def overlapHeader : List String :=
  ["source_frame", "target_frame", "n_common_frame_elements",
   "n_common_synset_labels", "common_frame_elements", "common_synset_labels"]

/-- Result of a run of `main`: the mapping CSV is written before the frame
derivation step, the remaining two CSVs only when no exception interrupts the
run (an uncaught `KeyError` is an `Except.error`). -/
structure RunOutput where
  mappingCsv : Csv MapRow
  rest : Except String (Csv TypingRow × Csv OverlapRow)
deriving Repr

/-- `main` (named `runMain` here because Lean reserves `main`), parameterised by the remote behaviour (`mapResp`, `candResp`,
`askSrc`, `askTgt`, `labResp`) and by the configured metaphor list.  Mirrors
the source line by line: build and deduplicate the mapping rows, write the
mapping CSV, derive the sorted set of frames (a `KeyError` when the mapping
`DataFrame` has no columns, i.e. was built from zero rows), expand typing per
frame, then compute and deduplicate overlaps for rows with both frames
non-null. -/
def runMain (mapResp : String → List MapBinding) (candResp : String → List CandBinding)
    (askSrc askTgt : String → Bool) (labResp : String → List LabBinding)
    (metaphors : List String) : RunOutput :=
  let all_map_rows := buildMapRows mapResp metaphors
  let df_map := dedup all_map_rows
  let mappingCsv : Csv MapRow :=
    ⟨if all_map_rows.isEmpty then [] else mappingHeader, df_map⟩
  if all_map_rows.isEmpty then
    ⟨mappingCsv, Except.error "KeyError: source_frame"⟩
  else
    let unique_frames := pySorted (dedup
      (df_map.filterMap (fun r => r.source_frame) ++
        df_map.filterMap (fun r => r.target_frame)))
    let typing_rows := unique_frames.map (fun f =>
      let info := expand_equivalents_and_typing f (candResp f) askSrc askTgt
      (⟨info.seed, joinSemi (pySorted info.candidates),
        joinSemi (pySorted info.as_source),
        joinSemi (pySorted info.as_target)⟩ : TypingRow))
    let typingCsv : Csv TypingRow :=
      ⟨if typing_rows.isEmpty then [] else typingHeader, typing_rows⟩
    let overlap_rows := (df_map.filterMap (fun r =>
      match r.source_frame, r.target_frame with
      | some s, some t => some (s, t)
      | _, _ => none)).map (fun p => compute_overlap p.1 p.2 labResp)
    let df_overlap := dedup overlap_rows
    let overlapCsv : Csv OverlapRow :=
      ⟨if overlap_rows.isEmpty then [] else overlapHeader, df_overlap⟩
    ⟨mappingCsv, Except.ok (typingCsv, overlapCsv)⟩

/-! ### Lemmas about `dedup` -/

theorem mem_dedupAux {α : Type} [DecidableEq α] (a : α) :
    ∀ (l seen : List α), a ∈ dedupAux seen l ↔ a ∈ l ∧ a ∉ seen := by
  intro l
  induction l with
  | nil => intro seen; simp [dedupAux]
  | cons x xs ih =>
    intro seen
    by_cases hx : x ∈ seen
    · rw [dedupAux, if_pos hx, ih]
      simp only [List.mem_cons]
      constructor
      · rintro ⟨h1, h2⟩
        exact ⟨Or.inr h1, h2⟩
      · rintro ⟨h1 | h1, h2⟩
        · exact absurd (h1 ▸ hx) h2
        · exact ⟨h1, h2⟩
    · rw [dedupAux, if_neg hx]
      simp only [List.mem_cons, ih]
      constructor
      · rintro (rfl | ⟨h1, h2⟩)
        · exact ⟨Or.inl rfl, hx⟩
        · exact ⟨Or.inr h1, fun hs => h2 (Or.inr hs)⟩
      · rintro ⟨h1 | h1, h2⟩
        · exact Or.inl h1
        · by_cases hax : a = x
          · exact Or.inl hax
          · exact Or.inr ⟨h1, fun hs => hs.elim hax h2⟩

theorem mem_dedup {α : Type} [DecidableEq α] (l : List α) (a : α) :
    a ∈ dedup l ↔ a ∈ l := by
  rw [dedup, mem_dedupAux]
  simp

theorem nodup_dedupAux {α : Type} [DecidableEq α] :
    ∀ (l seen : List α), (dedupAux seen l).Nodup := by
  intro l
  induction l with
  | nil => intro seen; simp [dedupAux]
  | cons x xs ih =>
    intro seen
    by_cases hx : x ∈ seen
    · rw [dedupAux, if_pos hx]
      exact ih seen
    · rw [dedupAux, if_neg hx]
      refine List.Nodup.cons ?_ (ih (x :: seen))
      intro hmem
      exact ((mem_dedupAux x xs (x :: seen)).mp hmem).2 (List.mem_cons_self x seen)

theorem nodup_dedup {α : Type} [DecidableEq α] (l : List α) : (dedup l).Nodup :=
  nodup_dedupAux l []

theorem sublist_dedupAux {α : Type} [DecidableEq α] :
    ∀ (l seen : List α), List.Sublist (dedupAux seen l) l := by
  intro l
  induction l with
  | nil => intro seen; simp [dedupAux]
  | cons x xs ih =>
    intro seen
    by_cases hx : x ∈ seen
    · rw [dedupAux, if_pos hx]
      exact (ih seen).cons x
    · rw [dedupAux, if_neg hx]
      exact (ih (x :: seen)).cons₂ x

theorem dedup_sublist {α : Type} [DecidableEq α] (l : List α) :
    List.Sublist (dedup l) l :=
  sublist_dedupAux l []

theorem dedupAux_eq_self {α : Type} [DecidableEq α] :
    ∀ (l seen : List α), l.Nodup → (∀ a ∈ l, a ∉ seen) → dedupAux seen l = l := by
  intro l
  induction l with
  | nil => intro seen _ _; rfl
  | cons x xs ih =>
    intro seen hnd hseen
    rw [List.nodup_cons] at hnd
    rw [dedupAux, if_neg (hseen x (List.mem_cons_self x xs))]
    congr 1
    refine ih (x :: seen) hnd.2 ?_
    intro a ha hmem
    rcases List.mem_cons.mp hmem with h | h
    · exact hnd.1 (h ▸ ha)
    · exact hseen a (List.mem_cons_of_mem x ha) h

theorem dedup_eq_self_of_nodup {α : Type} [DecidableEq α] (l : List α) (h : l.Nodup) :
    dedup l = l :=
  dedupAux_eq_self l [] h (fun a _ => List.not_mem_nil a)

theorem dedup_idem {α : Type} [DecidableEq α] (l : List α) : dedup (dedup l) = dedup l :=
  dedup_eq_self_of_nodup (dedup l) (nodup_dedup l)

/-! ### Lemmas about `pyLe` and `pySorted` -/

theorem charListLe_total : ∀ a b : List Char, charListLe a b = true ∨ charListLe b a = true
  | [], _ => Or.inl rfl
  | _ :: _, [] => Or.inr rfl
  | a :: as, b :: bs => by
    rw [charListLe, charListLe]
    by_cases h1 : a.toNat < b.toNat
    · left
      rw [if_pos h1]
    · by_cases h2 : b.toNat < a.toNat
      · right
        rw [if_pos h2]
      · rw [if_neg h1, if_neg h2, if_neg h2, if_neg h1]
        exact charListLe_total as bs

theorem charListLe_trans :
    ∀ a b c : List Char, charListLe a b = true → charListLe b c = true →
      charListLe a c = true
  | [], _, _ => by
    intro _ _
    rfl
  | _ :: _, [], _ => by
    intro h _
    exact Bool.noConfusion h
  | _ :: _, _ :: _, [] => by
    intro _ h
    exact Bool.noConfusion h
  | a :: as, b :: bs, c :: cs => by
    intro h1 h2
    rw [charListLe] at h1 h2
    rw [charListLe]
    by_cases hab : a.toNat < b.toNat
    · have hcb : ¬(c.toNat < b.toNat) := by
        intro hcb
        rw [if_neg (by omega), if_pos hcb] at h2
        exact Bool.noConfusion h2
      rw [if_pos (by omega)]
    · by_cases hba : b.toNat < a.toNat
      · rw [if_neg hab, if_pos hba] at h1
        exact Bool.noConfusion h1
      · rw [if_neg hab, if_neg hba] at h1
        by_cases hbc : b.toNat < c.toNat
        · rw [if_pos (by omega)]
        · by_cases hcb : c.toNat < b.toNat
          · rw [if_neg hbc, if_pos hcb] at h2
            exact Bool.noConfusion h2
          · rw [if_neg hbc, if_neg hcb] at h2
            rw [if_neg (by omega), if_neg (by omega)]
            exact charListLe_trans as bs cs h1 h2

theorem charListLe_antisymm :
    ∀ a b : List Char, charListLe a b = true → charListLe b a = true → a = b
  | [], [] => by
    intro _ _
    rfl
  | [], _ :: _ => by
    intro _ h
    exact Bool.noConfusion h
  | _ :: _, [] => by
    intro h _
    exact Bool.noConfusion h
  | a :: as, b :: bs => by
    intro h1 h2
    rw [charListLe] at h1 h2
    by_cases hab : a.toNat < b.toNat
    · rw [if_neg (by omega), if_pos hab] at h2
      exact Bool.noConfusion h2
    · by_cases hba : b.toNat < a.toNat
      · rw [if_neg hab, if_pos hba] at h1
        exact Bool.noConfusion h1
      · rw [if_neg hab, if_neg hba] at h1
        rw [if_neg hba, if_neg hab] at h2
        have h3 : a.toNat = b.toNat := by omega
        have hc : a = b := Char.ext (UInt32.ext h3)
        rw [hc, charListLe_antisymm as bs h1 h2]

theorem pyLe_total : ∀ a b : String, pyLe a b = true ∨ pyLe b a = true := by
  intro a b
  exact charListLe_total a.data b.data

theorem pyLe_trans : ∀ a b c : String, pyLe a b = true → pyLe b c = true →
    pyLe a c = true := by
  intro a b c h1 h2
  exact charListLe_trans a.data b.data c.data h1 h2

theorem pyLe_antisymm : ∀ a b : String, pyLe a b = true → pyLe b a = true → a = b := by
  intro a b h1 h2
  cases a with
  | mk la =>
    cases b with
    | mk lb =>
      exact congrArg String.mk (charListLe_antisymm la lb h1 h2)

theorem sorted_pySorted (l : List String) :
    List.Sorted (fun a b => pyLe a b = true) (pySorted l) :=
  @List.sorted_insertionSort String (fun a b => pyLe a b = true) _
    ⟨fun a b => pyLe_total a b⟩ ⟨fun a b c => pyLe_trans a b c⟩ l

theorem mem_pySorted (l : List String) (a : String) : a ∈ pySorted l ↔ a ∈ l :=
  (List.perm_insertionSort _ l).mem_iff

theorem nodup_pySorted (l : List String) (h : l.Nodup) : (pySorted l).Nodup :=
  ((List.perm_insertionSort _ l).nodup_iff).mpr h

/-! ### Lemmas about `pyStrip` -/

theorem dropWhile_head_false {α : Type} (p : α → Bool) :
    ∀ (l : List α) (c : α) (t : List α), l.dropWhile p = c :: t → p c = false := by
  intro l
  induction l with
  | nil => intro c t h; simp [List.dropWhile] at h
  | cons x xs ih =>
    intro c t h
    rw [List.dropWhile_cons] at h
    by_cases hx : p x = true
    · exact ih c t (by simpa [hx] using h)
    · simp [hx] at h
      simp [← h.1, Bool.eq_false_iff.mpr hx]

theorem dropWhile_dropWhile {α : Type} (p : α → Bool) (l : List α) :
    (l.dropWhile p).dropWhile p = l.dropWhile p := by
  cases h : l.dropWhile p with
  | nil => rfl
  | cons c t =>
    rw [List.dropWhile_cons, dropWhile_head_false p l c t h]
    simp

theorem dropWhile_suffix {α : Type} (p : α → Bool) : ∀ l : List α, l.dropWhile p <:+ l := by
  intro l
  induction l with
  | nil => exact List.suffix_rfl
  | cons x xs ih =>
    rw [List.dropWhile_cons]
    by_cases hx : p x = true
    · simp only [hx, if_true]
      exact ih.trans (List.suffix_cons x xs)
    · simp only [hx]
      simp

theorem dropTrail_prefix (l : List Char) : dropTrail l <+: l := by
  rcases dropWhile_suffix isWS l.reverse with ⟨t, ht⟩
  refine ⟨t.reverse, ?_⟩
  have := congrArg List.reverse ht
  simpa [dropTrail] using this

theorem dropTrail_idem (l : List Char) : dropTrail (dropTrail l) = dropTrail l := by
  unfold dropTrail
  rw [List.reverse_reverse, dropWhile_dropWhile]

theorem dropWhile_stripChars (l : List Char) :
    (stripChars l).dropWhile isWS = stripChars l := by
  unfold stripChars
  cases h : dropTrail (l.dropWhile isWS) with
  | nil => rfl
  | cons c t =>
    have hpre : dropTrail (l.dropWhile isWS) <+: l.dropWhile isWS :=
      dropTrail_prefix (l.dropWhile isWS)
    rw [h] at hpre
    rcases hpre with ⟨r, hr⟩
    have hc : isWS c = false := dropWhile_head_false isWS l c (t ++ r) (by rw [← hr]; rfl)
    rw [List.dropWhile_cons, hc]
    simp

theorem stripChars_idem (l : List Char) : stripChars (stripChars l) = stripChars l := by
  conv_lhs => rw [stripChars, dropWhile_stripChars]
  rw [stripChars, dropTrail_idem]

theorem pyStrip_idem (s : String) : pyStrip (pyStrip s) = pyStrip s := by
  unfold pyStrip
  exact congrArg String.mk (stripChars_idem s.data)

/-! ### Lemmas about `joinSemi`, `semiSplitChars`, `containsSep` -/

theorem containsSep_tail {c : Char} {p : List Char} (h : containsSep (c :: p) = false) :
    containsSep p = false := by
  cases p with
  | nil => rfl
  | cons c2 r =>
    have h2 : ((c == ';' && c2 == ' ') || containsSep (c2 :: r)) = false := h
    exact (Bool.or_eq_false_iff.mp h2).2

theorem data_append (s t : String) : (s ++ t).data = s.data ++ t.data := rfl

theorem semiSplitStep_nonsep (c : Char) (cur : List Char) (done : List (List Char))
    (h : ¬(c = ';' ∧ cur.head? = some ' ')) :
    semiSplitStep c (cur :: done) = (c :: cur) :: done := by
  cases cur with
  | nil => rfl
  | cons c2 curRest =>
    rw [semiSplitStep]
    rw [if_neg]
    intro hc
    exact h ⟨hc.1, by rw [hc.2]; rfl⟩

theorem semiSplitStep_sep (curRest : List Char) (done : List (List Char)) :
    semiSplitStep ';' ((' ' :: curRest) :: done) = [] :: curRest :: done := by
  rw [semiSplitStep, if_pos ⟨rfl, rfl⟩]

theorem semiSplitChars_shape : ∀ s : List Char, ∃ cur done, semiSplitChars s = cur :: done := by
  intro s
  induction s with
  | nil => exact ⟨[], [], rfl⟩
  | cons c s ih =>
    obtain ⟨cur, done, hcd⟩ := ih
    show ∃ u v, semiSplitStep c (semiSplitChars s) = u :: v
    rw [hcd]
    cases cur with
    | nil => exact ⟨[c], done, rfl⟩
    | cons c2 r =>
      rw [semiSplitStep]
      by_cases hc : c = ';' ∧ c2 = ' '
      · rw [if_pos hc]; exact ⟨[], r :: done, rfl⟩
      · rw [if_neg hc]; exact ⟨c :: c2 :: r, done, rfl⟩

theorem foldr_semiSplitStep_sepFree :
    ∀ (p : List Char) (done : List (List Char)), containsSep p = false →
      p.foldr semiSplitStep ([] :: done) = p :: done := by
  intro p
  induction p with
  | nil => intro done _; rfl
  | cons c p ih =>
    intro done h
    rw [List.foldr_cons, ih done (containsSep_tail h)]
    refine semiSplitStep_nonsep c p done ?_
    rintro ⟨rfl, hhead⟩
    cases p with
    | nil => simp at hhead
    | cons c2 r =>
      have h2 : c2 = ' ' := by simpa using hhead
      rw [h2] at h
      rw [show containsSep (';' :: ' ' :: r) = true from rfl] at h
      exact Bool.noConfusion h

theorem semiSplitChars_sepFree (p : List Char) (h : containsSep p = false) :
    semiSplitChars p = [p] :=
  foldr_semiSplitStep_sepFree p [] h

theorem semiSplitChars_append_sep (p rest : List Char) (h : containsSep p = false) :
    semiSplitChars (p ++ ';' :: ' ' :: rest) = p :: semiSplitChars rest := by
  obtain ⟨cur, done, hcd⟩ := semiSplitChars_shape rest
  rw [semiSplitChars, List.foldr_append]
  rw [show (';' :: ' ' :: rest).foldr semiSplitStep [[]] =
    semiSplitStep ';' (semiSplitStep ' ' (semiSplitChars rest)) from rfl]
  rw [hcd, semiSplitStep_nonsep ' ' cur done (by rintro ⟨h1, _⟩; exact absurd h1 (by decide))]
  rw [semiSplitStep_sep cur done]
  rw [foldr_semiSplitStep_sepFree p (cur :: done) h, ← hcd]

theorem joinSemi_cons_cons (s r : String) (t : List String) :
    (joinSemi (s :: r :: t)).data = s.data ++ ';' :: ' ' :: (joinSemi (r :: t)).data := by
  rw [joinSemi, data_append, data_append, List.append_assoc]
  rfl

theorem joinSemi_nonempty_data : ∀ (p : String) (t : List String), p ≠ "" →
    (joinSemi (p :: t)).data ≠ []
  | p, [], hp => by
    intro h
    apply hp
    cases p with
    | mk l =>
      rw [show joinSemi [String.mk l] = String.mk l from rfl] at h
      simp at h
      rw [h]
  | p, r :: t, _ => by
    rw [joinSemi_cons_cons]
    simp

theorem semiSplitChars_joinSemi : ∀ parts : List String, parts ≠ [] →
    (∀ s ∈ parts, containsSep s.data = false) →
    semiSplitChars (joinSemi parts).data = parts.map String.data
  | [], h, _ => absurd rfl h
  | [p], _, hsep => by
    rw [show joinSemi [p] = p from rfl]
    rw [semiSplitChars_sepFree p.data (hsep p (by simp))]
    simp
  | p :: q :: t, _, hsep => by
    rw [joinSemi_cons_cons]
    rw [semiSplitChars_append_sep p.data ((joinSemi (q :: t)).data) (hsep p (by simp))]
    rw [semiSplitChars_joinSemi (q :: t) (by simp)
      (fun s hs => hsep s (List.mem_cons_of_mem p hs))]
    simp

theorem semiSplit_joinSemi_length (parts : List String) (hne : parts ≠ [])
    (hgood : ∀ s ∈ parts, s ≠ "" ∧ containsSep s.data = false) :
    (semiSplit (joinSemi parts)).length = parts.length := by
  obtain ⟨p, t, rfl⟩ : ∃ p t, parts = p :: t := by
    cases parts with
    | nil => exact absurd rfl hne
    | cons p t => exact ⟨p, t, rfl⟩
  have hjoin : joinSemi (p :: t) ≠ "" := by
    intro hj
    exact joinSemi_nonempty_data p t (hgood p (by simp)).1 (by rw [hj])
  rw [semiSplit, if_neg hjoin]
  rw [semiSplitChars_joinSemi (p :: t) (by simp) (fun s hs => (hgood s hs).2)]
  simp

/-! ### Lemmas about the retry loop -/

theorem runSparqlGo_ok {ε α : Type} (f : ℕ → Except ε α) (retries : Int) (backoff : ℚ)
    (attempt : ℕ) (v : α) (ha : attempt < retries.toNat) (hf : f attempt = Except.ok v) :
    runSparqlGo f retries backoff attempt = (some (Except.ok v), []) := by
  rw [runSparqlGo, dif_pos ha, hf]

theorem runSparqlGo_error_last {ε α : Type} (f : ℕ → Except ε α) (retries : Int)
    (backoff : ℚ) (attempt : ℕ) (e : ε) (ha : attempt < retries.toNat)
    (hf : f attempt = Except.error e) (hlast : (attempt : Int) = retries - 1) :
    runSparqlGo f retries backoff attempt = (some (Except.error e), []) := by
  rw [runSparqlGo, dif_pos ha, hf]
  simp [hlast]

theorem runSparqlGo_error_retry {ε α : Type} (f : ℕ → Except ε α) (retries : Int)
    (backoff : ℚ) (attempt : ℕ) (e : ε) (ha : attempt < retries.toNat)
    (hf : f attempt = Except.error e) (hlast : ¬((attempt : Int) = retries - 1)) :
    runSparqlGo f retries backoff attempt =
      ((runSparqlGo f retries backoff (attempt + 1)).1,
        backoff * ((attempt : ℚ) + 1) :: (runSparqlGo f retries backoff (attempt + 1)).2) := by
  rw [runSparqlGo, dif_pos ha, hf]
  simp [hlast]

theorem runSparqlGo_all_fail {ε α : Type} (g : ℕ → Except ε α) (retries : Int) (backoff : ℚ)
    (err : ℕ → ε) (hg : ∀ i : ℕ, (i : Int) < retries → g i = Except.error (err i))
    (attempt : ℕ) (ha : attempt < retries.toNat) :
    (runSparqlGo g retries backoff attempt).1 =
      some (Except.error (err (retries.toNat - 1))) := by
  have hge : g attempt = Except.error (err attempt) := hg attempt (by omega)
  by_cases hlast : (attempt : Int) = retries - 1
  · rw [runSparqlGo_error_last g retries backoff attempt (err attempt) ha hge hlast]
    have he : attempt = retries.toNat - 1 := by omega
    rw [he]
  · rw [runSparqlGo_error_retry g retries backoff attempt (err attempt) ha hge hlast]
    exact runSparqlGo_all_fail g retries backoff err hg (attempt + 1) (by omega)
termination_by retries.toNat - attempt
decreasing_by omega

/-- Claim C1: retry semantics of `run_sparql`.  With `retries = 3` and a query
executor that fails exactly twice and then succeeds, `run_sparql` returns the
success result and sleeps exactly twice, with durations `backoff * 1` and
`backoff * 2`; and for any executor whose first `retries` attempts all fail,
the last error propagates to the caller uncaught. -/
theorem run_sparql_retry_policy {ε α : Type} (f : ℕ → Except ε α) (backoff : ℚ)
    (e0 e1 : ε) (v : α) (h0 : f 0 = Except.error e0) (h1 : f 1 = Except.error e1)
    (h2 : f 2 = Except.ok v) :
    run_sparql f 3 backoff = (some (Except.ok v), [backoff * 1, backoff * 2]) ∧
    ∀ (g : ℕ → Except ε α) (retries : Int) (err : ℕ → ε), 0 < retries →
      (∀ i : ℕ, (i : Int) < retries → g i = Except.error (err i)) →
      (run_sparql g retries backoff).1 =
        some (Except.error (err (retries.toNat - 1))) := by
  constructor
  · show runSparqlGo f 3 backoff 0 = _
    rw [runSparqlGo_error_retry f 3 backoff 0 e0 (by decide) h0 (by decide)]
    rw [runSparqlGo_error_retry f 3 backoff 1 e1 (by decide) h1 (by decide)]
    rw [runSparqlGo_ok f 3 backoff 2 v (by decide) h2]
    norm_num
  · intro g retries err hpos hg
    exact runSparqlGo_all_fail g retries backoff err hg 0 (by omega)

/-- Witness for C1 at a concrete executor: attempts 0 and 1 fail with errors
10 and 11, attempt 2 returns 7; and a concrete always-failing executor whose
last error (numbered 2) propagates. -/
theorem run_sparql_retry_policy_witness :
    run_sparql (fun i => if i = 0 then Except.error 10 else
      if i = 1 then Except.error 11 else (Except.ok 7 : Except ℕ ℕ)) 3 (4/5 : ℚ) =
      (some (Except.ok 7), [(4/5 : ℚ) * 1, (4/5 : ℚ) * 2]) ∧
    (run_sparql (fun i => (Except.error i : Except ℕ ℕ)) 3 (4/5 : ℚ)).1 =
      some (Except.error 2) :=
  ⟨(run_sparql_retry_policy (fun i => if i = 0 then Except.error 10 else
      if i = 1 then Except.error 11 else (Except.ok 7 : Except ℕ ℕ)) (4/5 : ℚ)
      10 11 7 rfl rfl rfl).1,
   (run_sparql_retry_policy (fun i => if i = 0 then Except.error 10 else
      if i = 1 then Except.error 11 else (Except.ok 7 : Except ℕ ℕ)) (4/5 : ℚ)
      10 11 7 rfl rfl rfl).2
      (fun i => Except.error i) 3 (fun i => i) (by decide) (fun i _ => rfl)⟩

/-- Claim C9: for a non-positive retry count the loop body of `run_sparql`
never executes: no query attempt is made (the result does not depend on the
executor), no sleep is performed, no error is raised, and the Python function
falls through returning `None`. -/
theorem run_sparql_nonpositive_retries {ε α : Type} (retries : Int) (backoff : ℚ)
    (h : retries ≤ 0) :
    ∀ f : ℕ → Except ε α, run_sparql f retries backoff = (none, []) := by
  intro f
  show runSparqlGo f retries backoff 0 = _
  rw [runSparqlGo, dif_neg]
  omega

/-- Witness for C9 at `retries = 0` and a concrete always-failing executor. -/
theorem run_sparql_nonpositive_retries_witness :
    run_sparql (fun i => (Except.error i : Except ℕ ℕ)) 0 (4/5 : ℚ) = (none, []) :=
  run_sparql_nonpositive_retries 0 (4/5 : ℚ) (by decide) (fun i => Except.error i)

/-! ### Lemmas about `get_frame_elements_and_synsets` and `compute_overlap` -/

theorem label_shape {o : Option String} {s : String}
    (h : o.bind (fun l => if l = "" then none else some (pyStrip l)) = some s) :
    ∃ x, s = pyStrip x := by
  cases o with
  | none => simp at h
  | some l =>
    by_cases hl : l = ""
    · simp [hl] at h
    · simp [hl] at h
      exact ⟨l, h.symm⟩

theorem sorted_nodup_trimmed (L : List String) (hL : ∀ s ∈ L, ∃ x, s = pyStrip x) :
    List.Sorted (fun a b => pyLe a b = true) (pySorted (dedup L)) ∧ (pySorted (dedup L)).Nodup ∧
      ∀ s ∈ pySorted (dedup L), pyStrip s = s := by
  refine ⟨sorted_pySorted _, nodup_pySorted _ (nodup_dedup L), ?_⟩
  intro s hs
  rw [mem_pySorted, mem_dedup] at hs
  obtain ⟨x, hx⟩ := hL s hs
  rw [hx, pyStrip_idem]

theorem gfes_nodup_fst (frame_uri : String) (resp : List LabBinding) :
    (get_frame_elements_and_synsets frame_uri resp).1.Nodup :=
  nodup_pySorted _ (nodup_dedup _)

theorem gfes_nodup_snd (frame_uri : String) (resp : List LabBinding) :
    (get_frame_elements_and_synsets frame_uri resp).2.Nodup :=
  nodup_pySorted _ (nodup_dedup _)

/-- Claim C8: both lists returned by `get_frame_elements_and_synsets` are
sorted ascending, duplicate-free, and contain only whitespace-trimmed strings
(each element equals its own strip). -/
theorem gfes_sorted_nodup_trimmed (frame_uri : String) (resp : List LabBinding) :
    (List.Sorted (fun a b => pyLe a b = true) (get_frame_elements_and_synsets frame_uri resp).1 ∧
      (get_frame_elements_and_synsets frame_uri resp).1.Nodup ∧
      ∀ s ∈ (get_frame_elements_and_synsets frame_uri resp).1, pyStrip s = s) ∧
    (List.Sorted (fun a b => pyLe a b = true) (get_frame_elements_and_synsets frame_uri resp).2 ∧
      (get_frame_elements_and_synsets frame_uri resp).2.Nodup ∧
      ∀ s ∈ (get_frame_elements_and_synsets frame_uri resp).2, pyStrip s = s) := by
  constructor
  · refine sorted_nodup_trimmed _ ?_
    intro s hs
    rw [List.mem_filterMap] at hs
    obtain ⟨b, _, hb⟩ := hs
    exact label_shape hb
  · refine sorted_nodup_trimmed _ ?_
    intro s hs
    rw [List.mem_filterMap] at hs
    obtain ⟨b, _, hb⟩ := hs
    exact label_shape hb

theorem pySorted_filter_contains_comm (A B : List String) (hA : A.Nodup) (hB : B.Nodup) :
    pySorted (A.filter (fun x => B.contains x)) =
      pySorted (B.filter (fun x => A.contains x)) := by
  have h1 : (pySorted (A.filter (fun x => B.contains x))).Nodup :=
    nodup_pySorted _ (hA.filter _)
  have h2 : (pySorted (B.filter (fun x => A.contains x))).Nodup :=
    nodup_pySorted _ (hB.filter _)
  refine @List.eq_of_perm_of_sorted String (fun a b => pyLe a b = true)
    ⟨fun a b => pyLe_antisymm a b⟩ _ _ ?_ (sorted_pySorted _) (sorted_pySorted _)
  refine (List.perm_ext_iff_of_nodup h1 h2).mpr ?_
  intro a
  simp only [mem_pySorted, List.mem_filter]
  constructor
  · rintro ⟨ha, hb⟩
    exact ⟨by simpa using hb, by simpa using ha⟩
  · rintro ⟨hb, ha⟩
    exact ⟨by simpa using ha, by simpa using hb⟩

/-- Claim C10: `compute_overlap` is symmetric in its two frames: the counts
and joined contents agree, and the `source_frame`/`target_frame` fields are
swapped. -/
theorem compute_overlap_symmetric (a b : String) (labResp : String → List LabBinding) :
    (compute_overlap a b labResp).n_common_frame_elements =
      (compute_overlap b a labResp).n_common_frame_elements ∧
    (compute_overlap a b labResp).n_common_synset_labels =
      (compute_overlap b a labResp).n_common_synset_labels ∧
    (compute_overlap a b labResp).common_frame_elements =
      (compute_overlap b a labResp).common_frame_elements ∧
    (compute_overlap a b labResp).common_synset_labels =
      (compute_overlap b a labResp).common_synset_labels ∧
    (compute_overlap a b labResp).source_frame = (compute_overlap b a labResp).target_frame ∧
    (compute_overlap a b labResp).target_frame = (compute_overlap b a labResp).source_frame := by
  have hfe := pySorted_filter_contains_comm
    (get_frame_elements_and_synsets a (labResp a)).1
    (get_frame_elements_and_synsets b (labResp b)).1
    (gfes_nodup_fst a (labResp a)) (gfes_nodup_fst b (labResp b))
  have hsyn := pySorted_filter_contains_comm
    (get_frame_elements_and_synsets a (labResp a)).2
    (get_frame_elements_and_synsets b (labResp b)).2
    (gfes_nodup_snd a (labResp a)) (gfes_nodup_snd b (labResp b))
  exact ⟨congrArg List.length hfe, congrArg List.length hsyn,
    congrArg joinSemi hfe, congrArg joinSemi hsyn, rfl, rfl⟩

/-- Claim C7: if the source frame's frame-element labels are exactly
`["Agent", "Goal"]` and the target frame's are exactly `["Agent", "Theme"]`,
then `compute_overlap` reports one common frame element, namely `"Agent"`. -/
theorem compute_overlap_agent_goal_theme (a b : String)
    (labResp : String → List LabBinding)
    (h1 : (get_frame_elements_and_synsets a (labResp a)).1 = ["Agent", "Goal"])
    (h2 : (get_frame_elements_and_synsets b (labResp b)).1 = ["Agent", "Theme"]) :
    (compute_overlap a b labResp).n_common_frame_elements = 1 ∧
    (compute_overlap a b labResp).common_frame_elements = "Agent" := by
  constructor
  · show (pySorted ((get_frame_elements_and_synsets a (labResp a)).1.filter
      (fun x => (get_frame_elements_and_synsets b (labResp b)).1.contains x))).length = 1
    rw [h1, h2]
    decide
  · show joinSemi (pySorted ((get_frame_elements_and_synsets a (labResp a)).1.filter
      (fun x => (get_frame_elements_and_synsets b (labResp b)).1.contains x))) = "Agent"
    rw [h1, h2]
    decide

/-- Witness for C7 at a concrete endpoint behaviour delivering exactly those
label sets for the two frames. -/
theorem compute_overlap_agent_goal_theme_witness :
    (compute_overlap "A" "B" (fun f => if f = "A" then
        [⟨some "Agent", none⟩, ⟨some "Goal", none⟩]
      else [⟨some "Agent", none⟩, ⟨some "Theme", none⟩])).n_common_frame_elements = 1 ∧
    (compute_overlap "A" "B" (fun f => if f = "A" then
        [⟨some "Agent", none⟩, ⟨some "Goal", none⟩]
      else [⟨some "Agent", none⟩, ⟨some "Theme", none⟩])).common_frame_elements = "Agent" :=
  compute_overlap_agent_goal_theme "A" "B" (fun f => if f = "A" then
      [⟨some "Agent", none⟩, ⟨some "Goal", none⟩]
    else [⟨some "Agent", none⟩, ⟨some "Theme", none⟩]) (by rfl) (by rfl)

/-- Counterexample to C4 as stated: when a label itself contains the
separator `"; "`, the reported count differs from the length of the
semicolon-split field (here one common label `"a; b"` splits into two). -/
theorem overlap_split_count_counterexample :
    ¬((compute_overlap "A" "B"
        (fun _ => [⟨some "a; b", none⟩])).n_common_frame_elements =
      (semiSplit (compute_overlap "A" "B"
        (fun _ => [⟨some "a; b", none⟩])).common_frame_elements).length) := by
  decide

theorem length_semiSplit_join (L : List String)
    (h : ∀ s ∈ L, s ≠ "" ∧ containsSep s.data = false) :
    (semiSplit (joinSemi L)).length = L.length := by
  cases L with
  | nil => simp [joinSemi, semiSplit]
  | cons p t => exact semiSplit_joinSemi_length (p :: t) (by simp) h

/-- Claim C4, amended: provided every frame-element label (resp. synset
label) of the source frame is nonempty and does not contain the separator
`"; "`, the count field of the overlap record equals the number of elements
of the semicolon-split joined field (with the empty string splitting to the
empty list). -/
theorem overlap_split_count (a b : String) (labResp : String → List LabBinding)
    (hfe : ∀ s ∈ (get_frame_elements_and_synsets a (labResp a)).1,
      s ≠ "" ∧ containsSep s.data = false)
    (hsyn : ∀ s ∈ (get_frame_elements_and_synsets a (labResp a)).2,
      s ≠ "" ∧ containsSep s.data = false) :
    (compute_overlap a b labResp).n_common_frame_elements =
      (semiSplit (compute_overlap a b labResp).common_frame_elements).length ∧
    (compute_overlap a b labResp).n_common_synset_labels =
      (semiSplit (compute_overlap a b labResp).common_synset_labels).length := by
  constructor
  · show (pySorted ((get_frame_elements_and_synsets a (labResp a)).1.filter
      (fun x => (get_frame_elements_and_synsets b (labResp b)).1.contains x))).length =
      (semiSplit (joinSemi (pySorted ((get_frame_elements_and_synsets a (labResp a)).1.filter
        (fun x => (get_frame_elements_and_synsets b (labResp b)).1.contains x))))).length
    refine (length_semiSplit_join _ ?_).symm
    intro s hs
    rw [mem_pySorted, List.mem_filter] at hs
    exact hfe s hs.1
  · show (pySorted ((get_frame_elements_and_synsets a (labResp a)).2.filter
      (fun x => (get_frame_elements_and_synsets b (labResp b)).2.contains x))).length =
      (semiSplit (joinSemi (pySorted ((get_frame_elements_and_synsets a (labResp a)).2.filter
        (fun x => (get_frame_elements_and_synsets b (labResp b)).2.contains x))))).length
    refine (length_semiSplit_join _ ?_).symm
    intro s hs
    rw [mem_pySorted, List.mem_filter] at hs
    exact hsyn s hs.1

/-- Witness for the amended C4 at a concrete endpoint behaviour with
ordinary separator-free labels. -/
theorem overlap_split_count_witness :
    (compute_overlap "A" "B"
      (fun _ => [⟨some "Agent", some "dog"⟩])).n_common_frame_elements =
      (semiSplit (compute_overlap "A" "B"
        (fun _ => [⟨some "Agent", some "dog"⟩])).common_frame_elements).length ∧
    (compute_overlap "A" "B"
      (fun _ => [⟨some "Agent", some "dog"⟩])).n_common_synset_labels =
      (semiSplit (compute_overlap "A" "B"
        (fun _ => [⟨some "Agent", some "dog"⟩])).common_synset_labels).length :=
  overlap_split_count "A" "B" (fun _ => [⟨some "Agent", some "dog"⟩])
    (by decide) (by decide)

/-- Counterexample to C3 as stated: for a response whose only binding carries
a candidate different from the seed, the returned candidate set does not
contain the seed frame. -/
theorem expand_typing_seed_counterexample :
    ¬("S" ∈ (expand_equivalents_and_typing "S" [⟨some "X", none⟩]
      (fun _ => false) (fun _ => false)).candidates) := by
  decide

/-- Claim C3, amended: `as_source` and `as_target` are always subsets of
`candidates`; `candidates` contains the seed exactly when some binding of the
response leaves the candidate variable unbound or binds it to the seed (which
the query's union branch guarantees for a conforming endpoint). -/
theorem expand_typing_invariant (frame_uri : String) (resp : List CandBinding)
    (askSrc askTgt : String → Bool) :
    (∀ c ∈ (expand_equivalents_and_typing frame_uri resp askSrc askTgt).as_source,
      c ∈ (expand_equivalents_and_typing frame_uri resp askSrc askTgt).candidates) ∧
    (∀ c ∈ (expand_equivalents_and_typing frame_uri resp askSrc askTgt).as_target,
      c ∈ (expand_equivalents_and_typing frame_uri resp askSrc askTgt).candidates) ∧
    (frame_uri ∈ (expand_equivalents_and_typing frame_uri resp askSrc askTgt).candidates ↔
      ∃ b ∈ resp, b.candidate.getD frame_uri = frame_uri) := by
  refine ⟨?_, ?_, ?_⟩
  · intro c hc
    have hc2 : c ∈ (dedup (resp.map (fun b => b.candidate.getD frame_uri))).filter
      (fun c => askSrc c) := hc
    exact (List.mem_filter.mp hc2).1
  · intro c hc
    have hc2 : c ∈ (dedup (resp.map (fun b => b.candidate.getD frame_uri))).filter
      (fun c => askTgt c) := hc
    exact (List.mem_filter.mp hc2).1
  · show frame_uri ∈ dedup (resp.map (fun b => b.candidate.getD frame_uri)) ↔ _
    rw [mem_dedup]
    exact List.mem_map

/-! ### Lemmas about the mapping stage of `runMain` -/

theorem runMain_mappingCsv (mapResp : String → List MapBinding)
    (candResp : String → List CandBinding) (askSrc askTgt : String → Bool)
    (labResp : String → List LabBinding) (metaphors : List String) :
    (runMain mapResp candResp askSrc askTgt labResp metaphors).mappingCsv =
      ⟨if (buildMapRows mapResp metaphors).isEmpty then [] else mappingHeader,
        dedup (buildMapRows mapResp metaphors)⟩ := by
  simp only [runMain]
  split
  · rfl
  · rfl

theorem buildMapRows_cons (mapResp : String → List MapBinding) (x : String)
    (xs : List String) :
    buildMapRows mapResp (x :: xs) =
      (if (get_mappings_roles_entailments x (mapResp x)).isEmpty
        then [placeholderRow x] else get_mappings_roles_entailments x (mapResp x)) ++
      buildMapRows mapResp xs := by
  rw [buildMapRows, buildMapRows, List.flatMap_cons]

theorem exists_row_buildMapRows (mapResp : String → List MapBinding)
    (hg : ∀ m2 b, b ∈ mapResp m2 → b.metaphor = some m2)
    (metaphors : List String) (m : String) (hm : m ∈ metaphors) :
    ∃ r ∈ buildMapRows mapResp metaphors, r.metaphor = some m := by
  cases hr : mapResp m with
  | nil =>
    refine ⟨placeholderRow m, ?_, rfl⟩
    rw [buildMapRows]
    apply List.mem_flatMap.mpr
    refine ⟨m, hm, ?_⟩
    rw [hr]
    simp [get_mappings_roles_entailments]
  | cons b bs =>
    refine ⟨⟨b.metaphor, b.src, b.tgt, b.srcRole, b.tgtRole, b.ent, b.ex⟩, ?_, ?_⟩
    · rw [buildMapRows]
      apply List.mem_flatMap.mpr
      refine ⟨m, hm, ?_⟩
      rw [hr]
      simp only [get_mappings_roles_entailments, List.map_cons, List.isEmpty_cons,
        if_false, Bool.false_eq_true]
      exact List.mem_cons_self _ _
    · exact hg m b (by rw [hr]; exact List.mem_cons_self b bs)

theorem filter_buildMapRows_eq_replicate (mapResp : String → List MapBinding)
    (hg : ∀ m2 b, b ∈ mapResp m2 → b.metaphor = some m2) (m : String)
    (hrows : mapResp m = []) :
    ∀ metaphors : List String,
      (buildMapRows mapResp metaphors).filter (fun r => r.metaphor == some m) =
        List.replicate (metaphors.count m) (placeholderRow m) := by
  intro metaphors
  induction metaphors with
  | nil => simp [buildMapRows]
  | cons x xs ih =>
    rw [buildMapRows_cons, List.filter_append, ih]
    by_cases hxm : x = m
    · subst hxm
      rw [hrows]
      rw [show get_mappings_roles_entailments x [] = [] from rfl]
      simp only [List.isEmpty_nil, if_true]
      rw [List.count_cons_self]
      rw [show List.filter (fun r => r.metaphor == some x) [placeholderRow x] =
        [placeholderRow x] from by simp [placeholderRow]]
      rw [List.replicate_succ]
      rfl
    · rw [List.count_cons_of_ne (fun h => hxm h.symm)]
      suffices hseg : (if (get_mappings_roles_entailments x (mapResp x)).isEmpty
          then [placeholderRow x] else get_mappings_roles_entailments x (mapResp x)).filter
          (fun r => r.metaphor == some m) = [] by
        rw [hseg, List.nil_append]
      by_cases hemp : (get_mappings_roles_entailments x (mapResp x)).isEmpty = true
      · rw [if_pos hemp]
        simp [placeholderRow, hxm]
      · rw [if_neg hemp]
        apply List.filter_eq_nil_iff.mpr
        intro r hrm
        rw [get_mappings_roles_entailments] at hrm
        obtain ⟨b, hb, rfl⟩ := List.mem_map.mp hrm
        have hbm : b.metaphor = some x := hg x b hb
        simp [hbm, hxm]

theorem filter_dedup_eq_singleton {α : Type} [DecidableEq α] (l : List α) (p : α → Bool)
    (x : α) (k : ℕ) (hk : 0 < k) (hf : l.filter p = List.replicate k x) :
    (dedup l).filter p = [x] := by
  have hsub : List.Sublist ((dedup l).filter p) (l.filter p) := (dedup_sublist l).filter p
  rw [hf] at hsub
  have hall : ∀ y ∈ (dedup l).filter p, y = x := by
    intro y hy
    exact List.eq_of_mem_replicate (hsub.subset hy)
  have hrep : (dedup l).filter p = List.replicate ((dedup l).filter p).length x :=
    List.eq_replicate_length.mpr hall
  have hnd : ((dedup l).filter p).Nodup := (nodup_dedup l).filter p
  have hxl : x ∈ l.filter p := by
    rw [hf]
    exact List.mem_replicate.mpr ⟨by omega, rfl⟩
  have hxd : x ∈ (dedup l).filter p := by
    rw [List.mem_filter] at hxl ⊢
    exact ⟨(mem_dedup l x).mpr hxl.1, hxl.2⟩
  have hle : ((dedup l).filter p).length ≤ 1 := by
    have h2 := hnd
    rw [hrep] at h2
    exact List.nodup_replicate.mp h2
  have hpos : 0 < ((dedup l).filter p).length := List.length_pos.mpr
    (List.ne_nil_of_mem hxd)
  have hlen : ((dedup l).filter p).length = 1 := by omega
  rw [hrep, hlen, List.replicate_one]

/-- Claim C2: every configured metaphor is represented in the deduplicated
mapping table by at least one row whose `metaphor` field equals it; and if
`get_mappings_roles_entailments` returns zero rows for a metaphor, the table
contains exactly one row for it, namely the all-null placeholder row.  The
hypothesis `hg` is the SPARQL guarantee that the `metaphor` variable of each
returned binding is bound to the queried IRI. -/
theorem mapping_placeholder_property (mapResp : String → List MapBinding)
    (candResp : String → List CandBinding) (askSrc askTgt : String → Bool)
    (labResp : String → List LabBinding) (metaphors : List String) (m : String)
    (hg : ∀ m2 b, b ∈ mapResp m2 → b.metaphor = some m2) (hm : m ∈ metaphors) :
    (∃ r ∈ (runMain mapResp candResp askSrc askTgt labResp metaphors).mappingCsv.rows,
      r.metaphor = some m) ∧
    (get_mappings_roles_entailments m (mapResp m) = [] →
      (runMain mapResp candResp askSrc askTgt labResp metaphors).mappingCsv.rows.filter
        (fun r => r.metaphor == some m) = [placeholderRow m]) := by
  rw [runMain_mappingCsv]
  constructor
  · obtain ⟨r, hr, hrm⟩ := exists_row_buildMapRows mapResp hg metaphors m hm
    exact ⟨r, (mem_dedup _ r).mpr hr, hrm⟩
  · intro hzero
    have hresp : mapResp m = [] := by
      rw [get_mappings_roles_entailments] at hzero
      exact List.map_eq_nil_iff.mp hzero
    have h1 := filter_buildMapRows_eq_replicate mapResp hg m hresp metaphors
    have hk : 0 < metaphors.count m := List.count_pos_iff.mpr hm
    exact filter_dedup_eq_singleton _ _ _ _ hk h1

/-- Witness for C2 with one metaphor whose query returns zero rows. -/
theorem mapping_placeholder_property_witness :
    (∃ r ∈ (runMain (fun _ => []) (fun _ => []) (fun _ => false) (fun _ => false)
      (fun _ => []) ["M"]).mappingCsv.rows, r.metaphor = some "M") ∧
    (get_mappings_roles_entailments "M" ((fun _ => ([] : List MapBinding)) "M") = [] →
      (runMain (fun _ => []) (fun _ => []) (fun _ => false) (fun _ => false)
        (fun _ => []) ["M"]).mappingCsv.rows.filter
        (fun r => r.metaphor == some "M") = [placeholderRow "M"]) :=
  mapping_placeholder_property (fun _ => []) (fun _ => []) (fun _ => false)
    (fun _ => false) (fun _ => []) ["M"] "M"
    (fun _ b hb => absurd hb (List.not_mem_nil b)) (by decide)

/-- Counterexample to C5 as stated: with zero configured metaphors the run
does not complete without error, and the mapping CSV does not carry its full
header row (the `DataFrame` built from zero rows has no columns; the frame
derivation step then raises a `KeyError`). -/
theorem runMain_empty_counterexample :
    (runMain (fun _ => []) (fun _ => []) (fun _ => false) (fun _ => false)
      (fun _ => []) []).mappingCsv.header ≠ mappingHeader ∧
    (runMain (fun _ => []) (fun _ => []) (fun _ => false) (fun _ => false)
      (fun _ => []) []).rest = Except.error "KeyError: source_frame" :=
  ⟨by decide, rfl⟩

/-- Claim C5, amended: with an empty configured metaphor list the mapping
stage emits zero placeholder rows and writes an empty mapping CSV with no
header (the `DataFrame` has no columns), and the run then aborts with an
uncaught `KeyError` at the frame-derivation step, so the typing and overlap
tables are never produced. -/
theorem runMain_empty_metaphors (mapResp : String → List MapBinding)
    (candResp : String → List CandBinding) (askSrc askTgt : String → Bool)
    (labResp : String → List LabBinding) :
    runMain mapResp candResp askSrc askTgt labResp [] =
      ⟨⟨[], []⟩, Except.error "KeyError: source_frame"⟩ := by
  rfl

/-- Claim C6: exact-row deduplication is idempotent, for mapping-row tables
and overlap-row tables alike. -/
theorem dedup_idempotent_tables :
    (∀ l : List MapRow, dedup (dedup l) = dedup l) ∧
    (∀ l : List OverlapRow, dedup (dedup l) = dedup l) :=
  ⟨fun l => dedup_idem l, fun l => dedup_idem l⟩
